import Mathlib

/-!
Shallow embedding of the subtitle-timed dubbing pipeline.

The repository contains two near-duplicate server variants:
* `src/server.js` (identical code to `src/unnamed/part_000`) — embedded here
  with the suffix `_v1`;
* `src/unnamed/part_001` — a simplified variant, embedded with the suffix `_v2`.

JavaScript numbers are modelled as `Option ℚ`: `some q` is an ordinary
(exactly representable) numeric value and `none` is `NaN`.  All inputs
exercised here are small decimal fractions, for which JavaScript's double
arithmetic is exact, so rational arithmetic is a faithful model.  Strings are
modelled as `List Char`.  JavaScript exceptions are modelled with
`Except Unit`.
-/

/-- JavaScript number: `some q` is a (rational-valued) number, `none` is NaN. -/
abbrev JsNum := Option ℚ

/-- Rational addition, built on `mkRat` so that the kernel can evaluate it
(`Rat.add` itself does not reduce); proved equal to `+` in `qAdd_eq`. -/
def qAdd (a b : ℚ) : ℚ := mkRat (a.num * b.den + b.num * a.den) (a.den * b.den)

/-- Rational multiplication via `mkRat`; proved equal to `*` in `qMul_eq`. -/
def qMul (a b : ℚ) : ℚ := mkRat (a.num * b.num) (a.den * b.den)

/-- Rational subtraction via `mkRat`; proved equal to `-` in `qSub_eq`. -/
def qSub (a b : ℚ) : ℚ := mkRat (a.num * b.den - b.num * a.den) (a.den * b.den)

/-- Division of a rational by a natural number via `mkRat`;
proved equal to `/` in `qDivNat_eq`. -/
def qDivNat (a : ℚ) (n : Nat) : ℚ := mkRat a.num (a.den * n)

/-- Multiplication by `10 ^ k` via `mkRat`. -/
def qMulPow10 (a : ℚ) (k : Nat) : ℚ := mkRat (a.num * (10 : Int) ^ k) a.den

/-- Division by `10 ^ k` via `mkRat`. -/
def qDivPow10 (a : ℚ) (k : Nat) : ℚ := mkRat a.num (a.den * 10 ^ k)

/-- JS `+` : NaN propagates. -/
def jsAdd : JsNum → JsNum → JsNum
  | some a, some b => some (qAdd a b)
  | _, _ => none

/-- JS `*` : NaN propagates. -/
def jsMul : JsNum → JsNum → JsNum
  | some a, some b => some (qMul a b)
  | _, _ => none

/-- JS `-` : NaN propagates. -/
def jsSub : JsNum → JsNum → JsNum
  | some a, some b => some (qSub a b)
  | _, _ => none

/-- JS division by a nonzero natural-number literal: NaN propagates. -/
def jsDivNat (x : JsNum) (n : Nat) : JsNum := x.map (fun a => qDivNat a n)

/-- JS `String.prototype.trim` (the whitespace actually occurring in SRT input). -/
def jsTrim (l : List Char) : List Char :=
  ((l.dropWhile Char.isWhitespace).reverse.dropWhile Char.isWhitespace).reverse

/-- Split a string at the first occurrence of `sep` (nonempty in all our uses):
`some (before, after)` when `sep` occurs, `none` otherwise. -/
def firstSplit (sep : List Char) : List Char → Option (List Char × List Char)
  | [] => if sep.isEmpty then some ([], []) else none
  | x :: xs =>
    if sep.isPrefixOf (x :: xs) then some ([], (x :: xs).drop sep.length)
    else
      match firstSplit sep xs with
      | some (a, b) => some (x :: a, b)
      | none => none

/-- Fuelled worker for `jsSplit`; `s.length` fuel always suffices because each
found separator occurrence strictly shortens the remainder. -/
def splitFuel (sep : List Char) : Nat → List Char → List (List Char)
  | 0, s => [s]
  | fuel + 1, s =>
    match firstSplit sep s with
    | none => [s]
    | some (a, b) => a :: splitFuel sep fuel b

/-- JS `String.prototype.split` with a nonempty string separator. -/
def jsSplit (sep s : List Char) : List (List Char) := splitFuel sep s.length s

/-- JS `String.prototype.includes` for a nonempty search string. -/
def jsIncludes (sub s : List Char) : Bool := (firstSplit sub s).isSome

/-- JS `String.prototype.replace` with a single-character string pattern:
replaces only the first occurrence. -/
def jsReplaceFirst (c d : Char) : List Char → List Char
  | [] => []
  | x :: xs => if x = c then d :: xs else x :: jsReplaceFirst c d xs

/-- Decimal digits to the natural number they denote. -/
def natOfDigits (ds : List Char) : Nat :=
  ds.foldl (fun acc c => acc * 10 + (c.toNat - 48)) 0

/-- Digits after a decimal point, as a rational in `[0, 1)`. -/
def fracOfDigits (ds : List Char) : ℚ :=
  mkRat (natOfDigits ds) (10 ^ ds.length)

/-- Leading run of decimal digits, or `none` when there is none (→ NaN). -/
def parseDigitsOpt (l : List Char) : Option Nat :=
  if (l.takeWhile Char.isDigit).isEmpty then none
  else some (natOfDigits (l.takeWhile Char.isDigit))

/-- JS `parseInt` after whitespace skipping: optional sign then leading digits.
(The `0x` hexadecimal form never occurs in timestamp fields and is omitted.) -/
def parseIntSigned (l : List Char) : JsNum :=
  match l with
  | [] => none
  | c :: rest =>
    if c = '-' then (parseDigitsOpt rest).map (fun n => -(n : ℚ))
    else if c = '+' then (parseDigitsOpt rest).map (fun n => (n : ℚ))
    else (parseDigitsOpt (c :: rest)).map (fun n => (n : ℚ))

/-- JS `parseInt(string)` (radix 10). -/
def parseIntJS (s : List Char) : JsNum :=
  parseIntSigned (s.dropWhile Char.isWhitespace)

/-- JS `parseInt` applied to a possibly-undefined value:
`parseInt(undefined)` coerces to `parseInt("undefined")`, which is NaN. -/
def parseIntJSOpt : Option (List Char) → JsNum
  | some s => parseIntJS s
  | none => none

/-- Exponent-part helper: digits of the exponent.  When no digit follows the
`e`, JS leaves the whole exponent unconsumed (`parseFloat("1e") = 1`). -/
def expDigits (q : ℚ) (orig ds0 : List Char) (neg : Bool) : ℚ × List Char :=
  if (ds0.takeWhile Char.isDigit).isEmpty then (q, orig)
  else
    ((if neg then qDivPow10 q (natOfDigits (ds0.takeWhile Char.isDigit))
      else qMulPow10 q (natOfDigits (ds0.takeWhile Char.isDigit))),
     ds0.dropWhile Char.isDigit)

/-- Exponent-part helper: optional sign after the `e`. -/
def expAfterE (q : ℚ) (orig rest : List Char) : ℚ × List Char :=
  match rest with
  | '-' :: r2 => expDigits q orig r2 true
  | '+' :: r2 => expDigits q orig r2 false
  | r2 => expDigits q orig r2 false

/-- Optional exponent part of a JS decimal literal. -/
def expPart (q : ℚ) (l : List Char) : ℚ × List Char :=
  match l with
  | [] => (q, [])
  | c :: rest => if c = 'e' ∨ c = 'E' then expAfterE q (c :: rest) rest else (q, l)

/-- Unsigned decimal literal `digits [. digits] [exponent]`: its value and the
unconsumed remainder, or `none` when no digit starts the literal. -/
def decimalCore (l : List Char) : Option (ℚ × List Char) :=
  match l.dropWhile Char.isDigit with
  | '.' :: r2 =>
    if (l.takeWhile Char.isDigit).isEmpty ∧ (r2.takeWhile Char.isDigit).isEmpty then none
    else
      some (expPart (qAdd (natOfDigits (l.takeWhile Char.isDigit) : ℚ)
                      (fracOfDigits (r2.takeWhile Char.isDigit)))
              (r2.dropWhile Char.isDigit))
  | r1 =>
    if (l.takeWhile Char.isDigit).isEmpty then none
    else some (expPart (natOfDigits (l.takeWhile Char.isDigit) : ℚ) r1)

/-- Signed part of JS `parseFloat` (trailing garbage is ignored). -/
def parseFloatSigned (l : List Char) : JsNum :=
  match l with
  | [] => none
  | c :: rest =>
    if c = '-' then (decimalCore rest).map (fun p => -p.1)
    else if c = '+' then (decimalCore rest).map (fun p => p.1)
    else (decimalCore (c :: rest)).map (fun p => p.1)

/-- JS `parseFloat(string)`.  (`Infinity` and hexadecimal forms never occur in
timestamp fields and are omitted.) -/
def parseFloatJS (s : List Char) : JsNum :=
  parseFloatSigned (s.dropWhile Char.isWhitespace)

/-- Tail of a JS `Number(string)` coercion: the decimal literal must consume
the entire remaining string. -/
def numTail (l : List Char) : Option ℚ :=
  match decimalCore l with
  | some (q, []) => some q
  | _ => none

/-- JS `Number(string)` coercion, as used by `isNaN(trimmed)`:
`some q` when the whole (trimmed) string is a decimal numeric literal,
`none` (NaN) otherwise.  (`Infinity` and hexadecimal forms are omitted;
subtitle index lines are plain digit runs.) -/
def jsNumberOf (s : List Char) : JsNum :=
  match jsTrim s with
  | [] => some 0
  | c :: rest =>
    if c = '-' then (numTail rest).map Neg.neg
    else if c = '+' then numTail rest
    else numTail (c :: rest)

/-- A parsed subtitle cue (`{ startTime, endTime, text }` in the source). -/
structure Cue where
  startTime : JsNum
  endTime : JsNum
  text : List Char
deriving DecidableEq, Repr, Inhabited

/-- `parseTime` of `src/server.js` (lines 65-82): replace the first comma by a
period, split on `:`; with exactly three fields return
`parseInt(h)*3600 + parseInt(m)*60 + parseFloat(s)`, otherwise `0`.  Nothing
in the body can throw, so the `try/catch` is dead and the function is total. -/
def parseTime_v1 (timeStr : List Char) : JsNum :=
  match jsSplit [':'] (jsReplaceFirst ',' '.' timeStr) with
  | [hh, mm, ss] =>
    jsAdd (jsAdd (jsMul (parseIntJS hh) (some 3600)) (jsMul (parseIntJS mm) (some 60)))
      (parseFloatJS ss)
  | _ => some 0

/-- `parseTime` of `src/unnamed/part_001` (lines 93-103).  The argument is the
possibly-undefined result of an array destructuring; `undefined.split` throws
(`Except.error ()`), as does `secondsMs.split(',')` when the timestamp has
fewer than three `:`-separated fields.  A missing milliseconds field gives
`parseInt(undefined) = NaN`. -/
def parseTime_v2 (timeStr? : Option (List Char)) : Except Unit JsNum :=
  match timeStr? with
  | none => .error ()
  | some timeStr =>
    match (jsSplit [':'] timeStr).get? 2 with
    | none => .error ()
    | some secondsMs =>
      .ok (jsAdd
            (jsAdd
              (jsAdd (jsMul (parseIntJS ((jsSplit [':'] timeStr).headD [])) (some 3600))
                     (jsMul (parseIntJSOpt ((jsSplit [':'] timeStr).get? 1)) (some 60)))
              (parseIntJS ((jsSplit [','] secondsMs).headD [])))
            (jsDivNat (parseIntJSOpt ((jsSplit [','] secondsMs).get? 1)) 1000))

/-- Loop state of `parseSRT` in `src/server.js`.  `cur = some (c, n)` means
`currentSub` holds cue `c`, which has already been pushed `n` times into the
`subtitles` array (JS pushes the object by reference, so later text appended
to `currentSub` is visible in those array slots; the copies are materialised
only when `currentSub` is detached — reassigned or nulled). -/
structure P1State where
  done : List Cue
  cur : Option (Cue × Nat)
deriving Repr

/-- Append a text line to an open cue, with the given join separator. -/
def appendText (sep : List Char) (c : Cue) (t : List Char) : Cue :=
  { c with text := c.text ++ (if c.text.isEmpty then [] else sep) ++ t }

/-- One line of the `parseSRT` loop of `src/server.js` (lines 24-56). -/
def p1Step (st : P1State) (line : List Char) : P1State :=
  if (jsTrim line).isEmpty then
    match st.cur with
    | some (c, n) => ⟨st.done ++ List.replicate (n + 1) c, none⟩
    | none => st
  else if jsIncludes ['-', '-', '>'] (jsTrim line) then
    match jsSplit [' ', '-', '-', '>', ' '] (jsTrim line) with
    | [p0, p1] =>
      -- the open cue (if any) is pushed, then `currentSub` is reassigned:
      -- all its array occurrences freeze at their current value.
      ⟨(match st.cur with
        | some (c, n) => st.done ++ List.replicate (n + 1) c
        | none => st.done),
       some (⟨parseTime_v1 p0, parseTime_v1 p1, []⟩, 0)⟩
    | _ =>
      -- parts.length ≠ 2: the open cue was pushed but `currentSub` still
      -- aliases it, so it stays open with one more live array occurrence.
      ⟨st.done, st.cur.map (fun p => (p.1, p.2 + 1))⟩
  else if (jsNumberOf (jsTrim line)).isSome && st.cur.isNone then
    st
  else
    match st.cur with
    | some (c, n) => ⟨st.done, some (appendText ['\n'] c (jsTrim line), n)⟩
    | none => st

/-- Number of cues the `v1` state will eventually contribute to the output. -/
def p1Count (st : P1State) : Nat :=
  st.done.length + (match st.cur with | some (_, n) => n + 1 | none => 0)

/-- `parseSRT` of `src/server.js` (lines 19-63): total, never throws. -/
def parseSRT_v1 (input : List Char) : List Cue :=
  match (jsSplit ['\n'] input).foldl p1Step ⟨[], none⟩ with
  | ⟨done, some (c, n)⟩ => done ++ List.replicate (n + 1) c
  | ⟨done, none⟩ => done

/-- One line of the `parseSRT` loop of `src/unnamed/part_001` (lines 61-84);
can throw via `parseTime`. -/
def p2Step (st : List Cue × Option Cue) (line : List Char) :
    Except Unit (List Cue × Option Cue) :=
  if (jsTrim line).isEmpty then .ok st
  else if jsIncludes ['-', '-', '>'] (jsTrim line) then
    match parseTime_v2 ((jsSplit [' ', '-', '-', '>', ' '] (jsTrim line)).get? 0) with
    | .error e => .error e
    | .ok s =>
      match parseTime_v2 ((jsSplit [' ', '-', '-', '>', ' '] (jsTrim line)).get? 1) with
      | .error e => .error e
      | .ok e =>
        .ok ((match st.2 with | some c => st.1 ++ [c] | none => st.1), some ⟨s, e, []⟩)
  else if st.2.isSome && (jsNumberOf (jsTrim line)).isSome then .ok st
  else
    match st.2 with
    | some c => .ok (st.1, some (appendText [' '] c (jsTrim line)))
    | none => .ok st

/-- `parseSRT` of `src/unnamed/part_001` (lines 56-91); propagates any
exception thrown by `parseTime`. -/
def parseSRT_v2 (input : List Char) : Except Unit (List Cue) := do
  let fin ← (jsSplit ['\n'] input).foldlM p2Step ([], none)
  match fin.2 with
  | some c => .ok (fin.1 ++ [c])
  | none => .ok fin.1

/-- Decidable equality of JS call results modelled in `Except`. -/
instance {ε α : Type _} [DecidableEq ε] [DecidableEq α] : DecidableEq (Except ε α) := fun x y =>
  match x, y with
  | .ok a, .ok b =>
    if h : a = b then .isTrue (h ▸ rfl) else .isFalse (fun hh => h (Except.ok.inj hh))
  | .error a, .error b =>
    if h : a = b then .isTrue (h ▸ rfl) else .isFalse (fun hh => h (Except.error.inj hh))
  | .ok _, .error _ => .isFalse (fun hh => Except.noConfusion hh)
  | .error _, .ok _ => .isFalse (fun hh => Except.noConfusion hh)

/-- Voice profile variants assigned by `detectVoiceType`. -/
inductive VoiceType where
  | child
  | female
  | male
deriving DecidableEq, Repr

/-- Membership in the Sinhala Unicode block `඀`-`෿`, the range kept
by `text.replace(/[^඀-෿]/g, '')`. -/
def isSinhalaChar (c : Char) : Bool := 0xD80 ≤ c.toNat && c.toNat ≤ 0xDFF

/-- `detectVoiceType` of `src/server.js` (lines 123-141).  `rand` models the
single `Math.random()` draw a run can make (a value in `[0,1)`); the
length-based branch returns before any draw.  `cleanText` in the source is
`text.filter isSinhalaChar` here. -/
def detectVoiceType_v1 (text : List Char) (rand : ℚ) : VoiceType :=
  if (text.filter isSinhalaChar).length < 15 then .child
  else if text.contains '?' || text.contains '!' then
    (if mkRat 7 10 < rand then .child else .female)
  else if rand < mkRat 4 10 then .female
  else if rand < mkRat 7 10 then .male
  else .child

/-- The `femininePatterns` list of `src/unnamed/part_001` (lines 114-116);
Sinhala literals (the checked-in file shows them in a mangled encoding). -/
def femininePatterns : List (List Char) :=
  ["මම".data, "මගේ".data, "ඔබ".data, "කියන්න".data, "එපා".data, "ආයුබෝවන්".data]

/-- `detectVoiceType` of `src/unnamed/part_001` (lines 106-125): note it never
strips the text to the Sinhala range (`sinhalaText = text`), uses threshold 20
on the raw length, and falls through to `male`. -/
def detectVoiceType_v2 (text : List Char) (rand : ℚ) : VoiceType :=
  if jsIncludes ['?'] text then .child
  else if text.length < 20 then .child
  else if femininePatterns.any (fun p => jsIncludes p text) then
    (if mkRat 1 2 < rand then .female else .male)
  else .male

/-- `generateSinhalaSpeech` of `src/server.js` (lines 85-120).  The network
transport is external: `response` is the outcome of the `axios` call
(`.ok bytes` or `.error ()` for any failure).  Every failure is caught and
converted to `Buffer.alloc(0)`; nothing propagates. -/
def generateSinhalaSpeech_v1 (text : List Char) (response : Except Unit (List Nat)) :
    List Nat :=
  match response with
  | .ok data => data
  | .error _ => []

/-- `generateSilentAudio` of `src/unnamed/part_001` (lines 50-53):
`Buffer.alloc(1000)`, a 1000-byte zero buffer, whatever the requested
duration. -/
def generateSilentAudio (durationSeconds : ℚ) : List Nat := List.replicate 1000 0

/-- `generateSinhalaSpeech` of `src/unnamed/part_001` (lines 19-48): on any
failure it falls back to `generateSilentAudio(text.length * 0.1)`. -/
def generateSinhalaSpeech_v2 (text : List Char) (response : Except Unit (List Nat)) :
    List Nat :=
  match response with
  | .ok data => data
  | .error _ => generateSilentAudio (qMul (text.length : ℚ) (mkRat 1 10))

/-- The cues actually sent to the synthesis adapter by the per-job loop of
`src/server.js` (line 365): `for (let i = 0; i < Math.min(subtitles.length, 50); i++)`. -/
def synthesisCalls_v1 (subtitles : List Cue) : List Cue :=
  subtitles.take (min subtitles.length 50)

/-- The cues sent to the synthesis adapter by the per-job loop of
`src/unnamed/part_001` (line 293): `for (const sub of subtitles)` — no cap. -/
def synthesisCalls_v2 (subtitles : List Cue) : List Cue := subtitles

/-- One audio segment handed to the mixer
(`{ audio, start, end, text }` in the source; `end` is `endTime` here). -/
structure AudioSegment where
  audio : List Nat
  start : JsNum
  endTime : JsNum
  text : List Char
deriving DecidableEq, Repr

/-- One delayed overlay in the `v1` ffmpeg mixing plan:
`adelay=<delayMs>|<delayMs>` applied to the given input audio. -/
structure Overlay where
  delayMs : JsNum
  audio : List Nat
deriving DecidableEq, Repr

/-- The mixing plan `createDubbedAudio` builds: either the silent base alone
(copied to the output when no nonempty segment exists) or the silent base of
`duration` seconds overlaid with delayed segments and mixed with
`amix=duration=longest`. -/
inductive MixPlan where
  | silentOnly (duration : ℚ)
  | mixed (duration : ℚ) (overlays : List Overlay)
deriving DecidableEq, Repr

/-- `createDubbedAudio` of `src/server.js` (lines 157-233), as the mixing plan
it sends to ffmpeg.  `tempFiles` (written twice below) is the sublist of
segments with nonempty audio, in order.  Note the filter loop pairs input
`i+1` (file `tempFiles[i]`) with the delay of `audioSegments[i]` — the
*unfiltered* list — exactly as in the source (line 203). -/
def createDubbedAudio (audioSegments : List AudioSegment) (totalDuration : ℚ) : MixPlan :=
  if (audioSegments.filter (fun s => !s.audio.isEmpty)).isEmpty then
    .silentOnly totalDuration
  else
    .mixed totalDuration
      (List.zipWith (fun tf seg => { delayMs := jsMul seg.start (some 1000), audio := tf.audio })
        (audioSegments.filter (fun s => !s.audio.isEmpty)) audioSegments)

/-- One overlay in the `v2` mixing plan: `mixAudioSegments` additionally
passes `-ss start` and `-t (end - start)` input options per segment. -/
structure Overlay2 where
  seekStart : JsNum
  limitDur : JsNum
  delayMs : JsNum
  audio : List Nat
deriving DecidableEq, Repr

/-- The `v2` mixing plan: silent base of `baseDuration` seconds plus every
segment (empty audio included — `mixAudioSegments` never filters). -/
structure MixPlan2 where
  baseDuration : ℚ
  overlays : List Overlay2
deriving DecidableEq, Repr

/-- `mixAudioSegments` of `src/unnamed/part_001` (lines 128-185), as the plan
it sends to ffmpeg: every segment is written out and overlaid, regardless of
its audio length or of its start time. -/
def mixAudioSegments (audioSegments : List AudioSegment) (totalDuration : ℚ) : MixPlan2 :=
  ⟨totalDuration,
   audioSegments.map (fun s =>
     { seekStart := s.start, limitDur := jsSub s.endTime s.start,
       delayMs := jsMul s.start (some 1000), audio := s.audio })⟩

/-- Number of overlays a `v1` plan schedules on top of the silent base. -/
def overlayCount : MixPlan → Nat
  | .silentOnly _ => 0
  | .mixed _ os => os.length

/-- The post-mux artifact check of `src/server.js` (lines 407-410):
`if (stats.size < 1024) throw new Error('Output file too small')`.
`.ok ()` lets the job complete; `.error _` aborts it (MuxFailed). -/
def postMuxCheck (size : Nat) : Except (List Char) Unit :=
  if size < 1024 then .error ("Output file too small".data) else .ok ()

/-- Observable per-user job state: which users have a session entry in the
global `userSessions` map and which job temp directories still exist. -/
structure JobState where
  hasSession : Nat → Bool
  hasTempDir : Nat → Bool

/-- How a dub job terminates once processing has begun. -/
inductive JobOutcome where
  | success
  | failure
deriving DecidableEq, Repr

/-- Terminal cleanup of `src/server.js` (lines 425-435): the `finally` block
removes the temp directory *and* deletes the user's session entry on every
terminal path, success or failure. -/
def jobCleanup_v1 (userId tempDir : Nat) (o : JobOutcome) (s : JobState) : JobState :=
  { hasSession := fun u => if u == userId then false else s.hasSession u,
    hasTempDir := fun d => if d == tempDir then false else s.hasTempDir d }

/-- Terminal cleanup of `src/unnamed/part_001` (lines 339-352):
`userSessions.delete(userId)` sits inside the `try` success path only;
the `finally` block removes just the temp directory. -/
def jobCleanup_v2 (userId tempDir : Nat) (o : JobOutcome) (s : JobState) : JobState :=
  match o with
  | .success =>
    { hasSession := fun u => if u == userId then false else s.hasSession u,
      hasTempDir := fun d => if d == tempDir then false else s.hasTempDir d }
  | .failure =>
    { s with hasTempDir := fun d => if d == tempDir then false else s.hasTempDir d }

/-- C1 counterexample: a single nonempty clip timed `start = 100.0` against
`totalDuration = 10.0` is *not* dropped — the mixing plan differs from the
pure-silence base, refuting `composite(D, clips) = composite(D, clips minus
late clips)`. -/
theorem createDubbedAudio_late_clip_not_dropped :
    createDubbedAudio [⟨[1], some 100, some 101, []⟩] 10 ≠ createDubbedAudio [] 10 := by
  decide

/-- C1 (amended): neither compositor filters clips by start time.
`createDubbedAudio` schedules exactly the clips with nonempty samples —
including those with `cue.start ≥ totalDuration`; the single clip timed
`start = 100.0` against `D = 10.0` is scheduled as an overlay delayed
100000 ms.  `mixAudioSegments` schedules every clip, empty ones included. -/
theorem createDubbedAudio_schedules_all_nonempty :
    (∀ (D : ℚ) (segs : List AudioSegment),
       overlayCount (createDubbedAudio segs D)
         = (segs.filter (fun s => !s.audio.isEmpty)).length)
    ∧ (∀ (D : ℚ) (segs : List AudioSegment),
       (mixAudioSegments segs D).overlays.length = segs.length)
    ∧ createDubbedAudio [⟨[1], some 100, some 101, []⟩] 10
        = MixPlan.mixed 10 [⟨some 100000, [1]⟩] := by
  refine ⟨?_, ?_, by decide⟩
  · intro D segs
    by_cases h : (segs.filter (fun s => !s.audio.isEmpty)).isEmpty = true
    · simp only [createDubbedAudio, if_pos h, overlayCount]
      rw [List.isEmpty_iff.mp h]
      rfl
    · simp only [createDubbedAudio, if_neg h, overlayCount, List.length_zipWith]
      exact Nat.min_eq_left (List.length_filter_le _ _)
  · intro D segs
    simp [mixAudioSegments]

/-- C2: the failing input evaluated.  `createDubbedAudio` skips the empty
clip's file but pairs the surviving clip's ffmpeg input with
`audioSegments[0]`'s start, scheduling it at 5000 ms instead of its own
7000 ms — so dropping the empty clip changes the schedule. -/
theorem createDubbedAudio_empty_clip_shifts_offsets :
    createDubbedAudio [⟨[], some 5, some 6, []⟩, ⟨[7, 7], some 7, some 8, []⟩] 10
        = MixPlan.mixed 10 [⟨some 5000, [7, 7]⟩]
    ∧ createDubbedAudio [⟨[7, 7], some 7, some 8, []⟩] 10
        = MixPlan.mixed 10 [⟨some 7000, [7, 7]⟩]
    ∧ createDubbedAudio [⟨[], some 5, some 6, []⟩, ⟨[7, 7], some 7, some 8, []⟩] 10
        ≠ createDubbedAudio [⟨[7, 7], some 7, some 8, []⟩] 10 := by
  refine ⟨by decide, by decide, by decide⟩

/-- C6 counterexample: the `part_001` synthesis adapter converts a failed TTS
request into a 1000-byte placeholder buffer, not a zero-length one. -/
theorem generateSinhalaSpeech_v2_fallback_nonzero :
    (generateSinhalaSpeech_v2 ("hi".data) (Except.error ())).length ≠ 0 := by
  simp only [generateSinhalaSpeech_v2, generateSilentAudio, List.length_replicate]
  decide

/-- C6 (amended): neither adapter propagates a transport failure (both are
total functions of the transport outcome); on failure the `server.js` variant
returns zero-length samples but the `part_001` variant returns a fixed
1000-byte placeholder; on success both return the response bytes. -/
theorem generateSinhalaSpeech_failure_behavior :
    ∀ (text : List Char) (e : Unit) (data : List Nat),
      generateSinhalaSpeech_v1 text (.error e) = []
      ∧ (generateSinhalaSpeech_v2 text (.error e)).length = 1000
      ∧ generateSinhalaSpeech_v1 text (.ok data) = data
      ∧ generateSinhalaSpeech_v2 text (.ok data) = data := by
  intro text e data
  refine ⟨rfl, ?_, rfl, rfl⟩
  simp only [generateSinhalaSpeech_v2, generateSilentAudio, List.length_replicate]

/-- C7 counterexample: with 51 parsed cues the `part_001` synthesis loop
invokes the adapter 51 times — more than the claimed 50-cue cap. -/
theorem synthesisCalls_v2_exceeds_cap :
    ¬ ((synthesisCalls_v2 (List.replicate 51 ⟨some 0, some 1, []⟩)).length ≤ 50) := by
  decide

/-- C7 (amended): only the `server.js` loop caps synthesis at 50 cues (it
synthesizes exactly the first `min(length, 50)` cues, never erroring on the
rest); the `part_001` loop synthesizes every parsed cue. -/
theorem synthesisCalls_cap_behavior :
    ∀ (subtitles : List Cue),
      (synthesisCalls_v1 subtitles).length ≤ 50
      ∧ synthesisCalls_v1 subtitles = subtitles.take 50
      ∧ synthesisCalls_v2 subtitles = subtitles := by
  intro subs
  have htake : synthesisCalls_v1 subs = subs.take 50 := by
    unfold synthesisCalls_v1
    rw [min_comm, ← List.take_take, List.take_length]
  refine ⟨?_, htake, rfl⟩
  rw [htake, List.length_take]
  exact Nat.min_le_left _ _

/-- C8 counterexample: an artifact of exactly 1024 bytes (1KB) — "at the
threshold" — lets the job complete; the claim said at-or-below fails. -/
theorem postMuxCheck_passes_at_threshold : postMuxCheck 1024 = Except.ok () := by decide

/-- C8 (amended): the post-mux size check fails the job exactly when the
artifact is strictly below 1024 bytes; at 1024 bytes or more the job
completes. -/
theorem postMuxCheck_iff : ∀ size : Nat, postMuxCheck size = Except.ok () ↔ 1024 ≤ size := by
  intro size
  unfold postMuxCheck
  by_cases h : size < 1024
  · rw [if_pos h]
    constructor
    · intro he; simp at he
    · intro hle; exact absurd hle (Nat.not_le.mpr h)
  · rw [if_neg h]
    exact ⟨fun _ => Nat.le_of_not_lt h, fun _ => rfl⟩

/-- C9 counterexample: in `part_001`, a job that fails after processing began
leaves the user's session entry in the map (only the temp directory is
removed). -/
theorem jobCleanup_v2_session_survives_failure :
    (jobCleanup_v2 1 7 JobOutcome.failure ⟨fun u => u == 1, fun d => d == 7⟩).hasSession 1
      = true := rfl

/-- C9 (amended): the `server.js` cleanup removes both the session entry and
the temp directory on every terminal path; the `part_001` cleanup always
removes the temp directory but deletes the session only on success — on
failure the session entry survives unchanged. -/
theorem jobCleanup_behavior :
    ∀ (userId tempDir : Nat) (o : JobOutcome) (s : JobState),
      (jobCleanup_v1 userId tempDir o s).hasSession userId = false
      ∧ (jobCleanup_v1 userId tempDir o s).hasTempDir tempDir = false
      ∧ (jobCleanup_v2 userId tempDir o s).hasTempDir tempDir = false
      ∧ (jobCleanup_v2 userId tempDir .failure s).hasSession userId = s.hasSession userId := by
  intro u d o s
  refine ⟨by simp [jobCleanup_v1], by simp [jobCleanup_v1], ?_, rfl⟩
  cases o <;> simp [jobCleanup_v2]

/-- C10 counterexample: 25 Latin characters strip to zero Sinhala characters
(below any fixed threshold), yet the `part_001` classifier returns `male`,
not `Child` — it measures the raw length and never strips. -/
theorem detectVoiceType_v2_ignores_script_range :
    detectVoiceType_v2 (List.replicate 25 'A') 0 = VoiceType.male
    ∧ ((List.replicate 25 'A').filter isSinhalaChar).length = 0 := by decide

/-- C10 (amended): in the `server.js` classifier, text whose Sinhala-stripped
length is below 15 is always classified `Child`, independently of the random
draw; the `part_001` classifier instead thresholds the raw length at 20
without stripping. -/
theorem detectVoiceType_v1_short_deterministic :
    ∀ (text : List Char) (r r' : ℚ),
      (text.filter isSinhalaChar).length < 15 →
      detectVoiceType_v1 text r = VoiceType.child
      ∧ detectVoiceType_v1 text r = detectVoiceType_v1 text r' := by
  intro text r r' h
  unfold detectVoiceType_v1
  rw [if_pos h, if_pos h]
  exact ⟨rfl, rfl⟩

/-- C10 witness: the short text `"hi"` is classified `Child` under two
different random draws. -/
theorem detectVoiceType_v1_short_witness :
    detectVoiceType_v1 ("hi".data) 0 = VoiceType.child
    ∧ detectVoiceType_v1 ("hi".data) 0 = detectVoiceType_v1 ("hi".data) (mkRat 99 100) :=
  detectVoiceType_v1_short_deterministic ("hi".data) 0 (mkRat 99 100) (by decide)

/-- Each line processed by the `server.js` parser loop adds at most one to the
number of cues the state will eventually emit. -/
theorem p1Count_step (st : P1State) (line : List Char) :
    p1Count (p1Step st line) ≤ p1Count st + 1 := by
  rcases st with ⟨done, cur⟩
  unfold p1Step
  by_cases h1 : (jsTrim line).isEmpty = true
  · rw [if_pos h1]
    rcases cur with _ | ⟨c, n⟩ <;>
      simp [p1Count, List.length_append, List.length_replicate]
  · rw [if_neg h1]
    by_cases h2 : jsIncludes ['-', '-', '>'] (jsTrim line) = true
    · rw [if_pos h2]
      generalize jsSplit [' ', '-', '-', '>', ' '] (jsTrim line) = parts
      rcases parts with _ | ⟨p0, _ | ⟨p1, _ | ⟨p2, rest⟩⟩⟩ <;>
        rcases cur with _ | ⟨c, n⟩ <;>
        simp [p1Count, List.length_append, List.length_replicate] <;> omega
    · rw [if_neg h2]
      rcases cur with _ | ⟨c, n⟩
      · by_cases h3 : ((jsNumberOf (jsTrim line)).isSome
            && (Option.isNone (none : Option (Cue × Nat)))) = true
        · rw [if_pos h3]
          simp [p1Count]
        · rw [if_neg h3]
          simp [p1Count]
      · simp only [Option.isNone_some, Bool.and_false]
        rw [if_neg (by simp)]
        simp [p1Count]

/-- Folding the `server.js` parser loop over `ls` lines adds at most
`ls.length` eventual cues. -/
theorem p1Count_foldl (ls : List (List Char)) :
    ∀ st : P1State, p1Count (ls.foldl p1Step st) ≤ p1Count st + ls.length := by
  induction ls with
  | nil => intro st; simp
  | cons l ls ih =>
    intro st
    have h1 := p1Count_step st l
    have h2 := ih (p1Step st l)
    simp only [List.foldl_cons, List.length_cons]
    omega

/-- The `server.js` parser emits exactly the cues its final loop state owes. -/
theorem parseSRT_v1_length_eq (input : List Char) :
    (parseSRT_v1 input).length
      = p1Count ((jsSplit ['\n'] input).foldl p1Step ⟨[], none⟩) := by
  unfold parseSRT_v1
  split <;> rename_i heq <;> rw [heq] <;>
    simp [p1Count, List.length_append, List.length_replicate]

/-- C3 counterexample: the `part_001` parser throws on the line `a-->b` (a
timestamp line whose `-->` is not surrounded by single spaces): the
destructured end timestamp is `undefined`, and `parseTime` calls `.split` on
a string with fewer than three `:`-fields, raising a `TypeError` that aborts
the caller. -/
theorem parseSRT_v2_throws_on_unspaced_arrow :
    parseSRT_v2 ("a-->b".data) = Except.error () := by decide

/-- C3 (amended): the `server.js` parser is a total function — it returns an
ordered cue list on every input, never more cues than input lines, and the
classic two-cue example parses as specified; on the malformed line `a-->b` it
returns no cue without aborting, though a malformed timestamp line can also
*duplicate* the open cue (the pushed object stays aliased and is pushed
again), so malformed lines do not only reduce the cue count.  The `part_001`
parser is not exception-free (it throws on `a-->b`), though on well-formed
input it returns the same cues with a space text join. -/
theorem parseSRT_v1_total_behavior :
    (∀ input : List Char, (parseSRT_v1 input).length ≤ (jsSplit ['\n'] input).length)
    ∧ parseSRT_v1 ("1\n00:00:00,000 --> 00:00:02,000\nHello\n\n2\n00:00:02,000 --> 00:00:04,000\nWorld\n".data)
        = [⟨some 0, some 2, "Hello".data⟩, ⟨some 2, some 4, "World".data⟩]
    ∧ parseSRT_v1 ("a-->b".data) = []
    ∧ parseSRT_v1 ("00:00:00,000 --> 00:00:01,000\nHello\nx --> y --> z\n\n".data)
        = [⟨some 0, some 1, "Hello".data⟩, ⟨some 0, some 1, "Hello".data⟩]
    ∧ parseSRT_v2 ("1\n00:00:00,000 --> 00:00:02,000\nHello\n\n2\n00:00:02,000 --> 00:00:04,000\nWorld\n".data)
        = Except.ok [⟨some 0, some 2, "Hello".data⟩, ⟨some 2, some 4, "World".data⟩] := by
  refine ⟨?_, by decide, by decide, by decide, by decide⟩
  intro input
  rw [parseSRT_v1_length_eq]
  have h := p1Count_foldl (jsSplit ['\n'] input) ⟨[], none⟩
  simpa [p1Count] using h

/-- C5 counterexample: `"aa:bb:cc"` is a malformed timestamp (three fields
but non-numeric), yet `server.js`'s `parseTime` returns NaN — not `0.0` —
because `parseInt("aa") = NaN` propagates through the arithmetic. -/
theorem parseTime_v1_nan_on_nonnumeric_fields :
    parseTime_v1 ("aa:bb:cc".data) = none := by decide

/-- C5 (amended): `server.js`'s `parseTime` returns exactly `0.0` (and cannot
throw) only for timestamps that do not split into exactly three `:`-fields;
a three-field timestamp with non-numeric fields yields NaN instead, and the
`part_001` variant throws outright when fewer than three `:`-fields are
present. -/
theorem parseTime_v1_zero_on_bad_field_count :
    (∀ s : List Char,
       (jsSplit [':'] (jsReplaceFirst ',' '.' s)).length ≠ 3 → parseTime_v1 s = some 0)
    ∧ (∀ s : List Char,
       (jsSplit [':'] s).length < 3 → parseTime_v2 (some s) = Except.error ())
    ∧ parseTime_v1 ("aa:bb:cc".data) = none := by
  refine ⟨?_, ?_, by decide⟩
  · intro s h
    unfold parseTime_v1
    split
    all_goals first
      | rfl
      | (rename_i heq; rw [heq] at h; simp at h)
  · intro s h
    simp only [parseTime_v2]
    rw [List.get?_eq_none.mpr (by omega : (jsSplit [':'] s).length ≤ 2)]

/-- C5 witness: `"aa"` has one `:`-field, so `server.js` returns `0.0` and
`part_001` throws. -/
theorem parseTime_v1_zero_witness :
    parseTime_v1 ("aa".data) = some 0 ∧ parseTime_v2 (some ("aa".data)) = Except.error () :=
  ⟨parseTime_v1_zero_on_bad_field_count.1 ("aa".data) (by decide),
   parseTime_v1_zero_on_bad_field_count.2.1 ("aa".data) (by decide)⟩

/-- `replace` leaves a string without the pattern character unchanged. -/
theorem jsReplaceFirst_of_not_mem {c d : Char} {l : List Char} (h : c ∉ l) :
    jsReplaceFirst c d l = l := by
  induction l with
  | nil => rfl
  | cons x xs ih =>
    have hxc : ¬(x = c) := fun hxc => h (by rw [hxc]; exact List.mem_cons_self _ _)
    unfold jsReplaceFirst
    rw [if_neg hxc, ih (fun hm => h (List.mem_cons_of_mem _ hm))]

/-- `replace` rewrites exactly the first occurrence of the pattern. -/
theorem jsReplaceFirst_append_cons {c d : Char} {pre post : List Char} (h : c ∉ pre) :
    jsReplaceFirst c d (pre ++ c :: post) = pre ++ d :: post := by
  induction pre with
  | nil => simp [jsReplaceFirst]
  | cons x xs ih =>
    have hxc : ¬(x = c) := fun hxc => h (by rw [hxc]; exact List.mem_cons_self _ _)
    show jsReplaceFirst c d (x :: (xs ++ c :: post)) = x :: (xs ++ d :: post)
    unfold jsReplaceFirst
    rw [if_neg hxc, ih (fun hm => h (List.mem_cons_of_mem _ hm))]

/-- A single-character separator absent from the string is never found. -/
theorem firstSplit_single_of_not_mem {c : Char} {s : List Char} (h : c ∉ s) :
    firstSplit [c] s = none := by
  induction s with
  | nil => rfl
  | cons x xs ih =>
    have hxc : ¬(x = c) := fun hxc => h (by rw [hxc]; exact List.mem_cons_self _ _)
    have hpref : ([c].isPrefixOf (x :: xs)) = false := by
      simp [List.isPrefixOf]
      exact fun hcx => hxc hcx.symm
    unfold firstSplit
    rw [hpref]
    simp [ih (fun hm => h (List.mem_cons_of_mem _ hm))]

/-- A single-character separator is found at its first occurrence. -/
theorem firstSplit_single_append {c : Char} {a b : List Char} (h : c ∉ a) :
    firstSplit [c] (a ++ c :: b) = some (a, b) := by
  induction a with
  | nil => simp [firstSplit, List.isPrefixOf]
  | cons x xs ih =>
    have hxc : ¬(x = c) := fun hxc => h (by rw [hxc]; exact List.mem_cons_self _ _)
    have hpref : ([c].isPrefixOf (x :: (xs ++ c :: b))) = false := by
      simp [List.isPrefixOf]
      exact fun hcx => hxc hcx.symm
    simp only [List.cons_append]
    unfold firstSplit
    rw [hpref]
    simp [ih (fun hm => h (List.mem_cons_of_mem _ hm))]

/-- Splitting on an absent single-character separator returns the whole
string, with any fuel. -/
theorem splitFuel_single_of_not_mem {c : Char} {s : List Char} (h : c ∉ s) :
    ∀ f, splitFuel [c] f s = [s] := by
  intro f
  cases f with
  | zero => rfl
  | succ f => unfold splitFuel; rw [firstSplit_single_of_not_mem h]

/-- Definitional unfolding of one fuelled splitting step. -/
theorem splitFuel_succ (sep : List Char) (f : Nat) (s : List Char) :
    splitFuel sep (f + 1) s
      = match firstSplit sep s with
        | none => [s]
        | some (a, b) => a :: splitFuel sep f b := rfl

/-- One splitting step at the first separator occurrence. -/
theorem splitFuel_single_append {c : Char} {a b : List Char} (h : c ∉ a) (f : Nat) :
    splitFuel [c] (f + 1) (a ++ c :: b) = a :: splitFuel [c] f b := by
  rw [splitFuel_succ, firstSplit_single_append h]

/-- Splitting a two-field string. -/
theorem splitFuel_two {c : Char} {a b : List Char} (ha : c ∉ a) (hb : c ∉ b) (f : Nat) :
    splitFuel [c] (f + 1) (a ++ c :: b) = [a, b] := by
  rw [splitFuel_single_append ha, splitFuel_single_of_not_mem hb]

/-- JS `split` of a three-field string on a single-character separator. -/
theorem jsSplit_three {c : Char} {hh mm tt : List Char}
    (h1 : c ∉ hh) (h2 : c ∉ mm) (h3 : c ∉ tt) :
    jsSplit [c] (hh ++ (c :: (mm ++ (c :: tt)))) = [hh, mm, tt] := by
  unfold jsSplit
  rw [show (hh ++ (c :: (mm ++ (c :: tt)))).length
        = (hh.length + (mm.length + tt.length + 1)) + 1 from by simp; omega]
  rw [splitFuel_single_append h1]
  rw [show hh.length + (mm.length + tt.length + 1)
        = (hh.length + (mm.length + tt.length)) + 1 from by omega]
  rw [splitFuel_two h2 h3]

/-- A decimal digit is not JS whitespace. -/
theorem digit_not_whitespace {c : Char} (h : c.isDigit = true) : c.isWhitespace = false := by
  cases hwb : c.isWhitespace
  · rfl
  · exfalso
    unfold Char.isWhitespace at hwb
    simp only [Bool.or_eq_true, decide_eq_true_eq] at hwb
    rcases hwb with ((h1 | h1) | h1) | h1 <;> subst h1 <;> exact absurd h (by decide)

/-- A character failing the digit test is not in an all-digit string. -/
theorem not_mem_of_all_digit {x : Char} {l : List Char} (hl : l.all Char.isDigit = true)
    (hx : x.isDigit = false) : x ∉ l := by
  intro hmem
  have hxd := List.all_eq_true.mp hl x hmem
  rw [hx] at hxd
  cases hxd

/-- `takeWhile` keeps a list all of whose elements satisfy the predicate. -/
theorem takeWhile_all_eq {α : Type _} {p : α → Bool} {l : List α} (h : l.all p = true) :
    l.takeWhile p = l := by
  induction l with
  | nil => rfl
  | cons x xs ih =>
    simp only [List.all_cons, Bool.and_eq_true] at h
    rw [List.takeWhile_cons_of_pos h.1, ih h.2]

/-- `dropWhile` drops a list all of whose elements satisfy the predicate. -/
theorem dropWhile_all_eq {α : Type _} {p : α → Bool} {l : List α} (h : l.all p = true) :
    l.dropWhile p = [] := by
  induction l with
  | nil => rfl
  | cons x xs ih =>
    simp only [List.all_cons, Bool.and_eq_true] at h
    rw [List.dropWhile_cons_of_pos h.1, ih h.2]

/-- `takeWhile` passes over an all-satisfying prefix. -/
theorem takeWhile_append_all {α : Type _} {p : α → Bool} {a b : List α} (ha : a.all p = true) :
    (a ++ b).takeWhile p = a ++ b.takeWhile p := by
  induction a with
  | nil => rfl
  | cons x xs ih =>
    simp only [List.all_cons, Bool.and_eq_true] at ha
    simp only [List.cons_append]
    rw [List.takeWhile_cons_of_pos ha.1, ih ha.2]

/-- `dropWhile` passes over an all-satisfying prefix. -/
theorem dropWhile_append_all {α : Type _} {p : α → Bool} {a b : List α} (ha : a.all p = true) :
    (a ++ b).dropWhile p = b.dropWhile p := by
  induction a with
  | nil => rfl
  | cons x xs ih =>
    simp only [List.all_cons, Bool.and_eq_true] at ha
    simp only [List.cons_append]
    rw [List.dropWhile_cons_of_pos ha.1, ih ha.2]

/-- `parseInt` evaluates a nonempty all-digit string to its decimal value. -/
theorem parseIntJS_digits {ds : List Char} (h : ds.all Char.isDigit = true) (hne : ds ≠ []) :
    parseIntJS ds = some ((natOfDigits ds : ℕ) : ℚ) := by
  rcases ds with _ | ⟨d, rest⟩
  · exact absurd rfl hne
  · simp only [List.all_cons, Bool.and_eq_true] at h
    unfold parseIntJS
    rw [List.dropWhile_cons_of_neg (by simp [digit_not_whitespace h.1])]
    simp only [parseIntSigned]
    have hd1 : ¬(d = '-') := fun he => absurd (he ▸ h.1) (by decide)
    have hd2 : ¬(d = '+') := fun he => absurd (he ▸ h.1) (by decide)
    rw [if_neg hd1, if_neg hd2]
    unfold parseDigitsOpt
    rw [takeWhile_all_eq (by simp [List.all_cons, h.1, h.2])]
    rw [if_neg (by simp)]
    rfl

/-- `decimalCore` evaluates `digits.digits` with nothing following. -/
theorem decimalCore_digits {s f : List Char} (hs : s.all Char.isDigit = true) (hsne : s ≠ [])
    (hf : f.all Char.isDigit = true) :
    decimalCore (s ++ '.' :: f)
      = some (qAdd ((natOfDigits s : ℕ) : ℚ) (fracOfDigits f), []) := by
  have h1 : (s ++ '.' :: f).dropWhile Char.isDigit = '.' :: f := by
    rw [dropWhile_append_all hs, List.dropWhile_cons_of_neg (by decide)]
  have h2 : (s ++ '.' :: f).takeWhile Char.isDigit = s := by
    rw [takeWhile_append_all hs, List.takeWhile_cons_of_neg (by decide), List.append_nil]
  simp only [decimalCore, h1, h2, takeWhile_all_eq hf, dropWhile_all_eq hf]
  rw [if_neg (fun hcc => hsne (List.isEmpty_iff.mp hcc.1))]
  simp [expPart]

/-- `parseFloat` evaluates a `digits.digits` string to its decimal value. -/
theorem parseFloatJS_digits {s f : List Char} (hs : s.all Char.isDigit = true) (hsne : s ≠ [])
    (hf : f.all Char.isDigit = true) :
    parseFloatJS (s ++ '.' :: f)
      = some (qAdd ((natOfDigits s : ℕ) : ℚ) (fracOfDigits f)) := by
  rcases s with _ | ⟨d, rest⟩
  · exact absurd rfl hsne
  · have hall := hs
    simp only [List.all_cons, Bool.and_eq_true] at hs
    unfold parseFloatJS
    simp only [List.cons_append]
    rw [List.dropWhile_cons_of_neg (by simp [digit_not_whitespace hs.1])]
    simp only [parseFloatSigned]
    have hd1 : ¬(d = '-') := fun he => absurd (he ▸ hs.1) (by decide)
    have hd2 : ¬(d = '+') := fun he => absurd (he ▸ hs.1) (by decide)
    rw [if_neg hd1, if_neg hd2]
    rw [show d :: (rest ++ '.' :: f) = (d :: rest) ++ '.' :: f from rfl]
    rw [decimalCore_digits hall (List.cons_ne_nil d rest) hf]
    rfl

/-- The `mkRat`-based addition agrees with rational addition. -/
theorem qAdd_eq (a b : ℚ) : qAdd a b = a + b := by
  unfold qAdd
  have ha : ((a.den : ℚ)) ≠ 0 := by exact_mod_cast a.den_nz
  have hb : ((b.den : ℚ)) ≠ 0 := by exact_mod_cast b.den_nz
  rw [Rat.mkRat_eq_div]
  push_cast
  conv_rhs => rw [← Rat.num_div_den a, ← Rat.num_div_den b]
  rw [div_add_div _ _ ha hb]
  ring_nf

/-- The `mkRat`-based multiplication agrees with rational multiplication. -/
theorem qMul_eq (a b : ℚ) : qMul a b = a * b := by
  unfold qMul
  have ha : ((a.den : ℚ)) ≠ 0 := by exact_mod_cast a.den_nz
  have hb : ((b.den : ℚ)) ≠ 0 := by exact_mod_cast b.den_nz
  rw [Rat.mkRat_eq_div]
  push_cast
  conv_rhs => rw [← Rat.num_div_den a, ← Rat.num_div_den b]
  rw [div_mul_div_comm]

/-- C4 counterexample: the `part_001` `parseTime` does *not* accept the period
separator — `"00:00:01.100"` evaluates to NaN (the milliseconds field is
`undefined` after splitting on the comma), while the comma form gives 1.1. -/
theorem parseTime_v2_period_gives_nan :
    parseTime_v2 (some ("00:00:01.100".data)) = Except.ok (none : JsNum)
    ∧ parseTime_v2 (some ("00:00:01,100".data)) = Except.ok (some (mkRat 11 10)) := by
  exact ⟨by decide, by decide⟩

/-- C4 (amended): in the `server.js` `parseTime` both decimal separators work:
the example evaluates to exactly 1.1 under either, swapping the single comma
for a period never changes the result, and every well-formed digit timestamp
`HH:MM:SS.mmm` evaluates to `H*3600 + M*60 + (S + 0.mmm)`.  The `part_001`
variant accepts only the comma form — the period form yields NaN. -/
theorem parseTime_v1_separator_interchange :
    parseTime_v1 ("00:00:01,100".data) = some (mkRat 11 10)
    ∧ parseTime_v1 ("00:00:01.100".data) = some (mkRat 11 10)
    ∧ parseTime_v2 (some ("00:00:01,100".data)) = Except.ok (some (mkRat 11 10))
    ∧ (∀ pre post : List Char, ',' ∉ pre → ',' ∉ post →
        parseTime_v1 (pre ++ ',' :: post) = parseTime_v1 (pre ++ '.' :: post))
    ∧ (∀ hh mm ss ff : List Char,
        hh.all Char.isDigit = true → hh ≠ [] →
        mm.all Char.isDigit = true → mm ≠ [] →
        ss.all Char.isDigit = true → ss ≠ [] →
        ff.all Char.isDigit = true →
        parseTime_v1 (hh ++ (':' :: (mm ++ (':' :: (ss ++ '.' :: ff)))))
          = some ((natOfDigits hh : ℚ) * 3600 + (natOfDigits mm : ℚ) * 60
              + ((natOfDigits ss : ℚ) + fracOfDigits ff))) := by
  refine ⟨by decide, by decide, by decide, ?_, ?_⟩
  · intro pre post hpre hpost
    have hnp : ',' ∉ pre ++ '.' :: post := by
      intro hmem
      rcases List.mem_append.mp hmem with h | h
      · exact hpre h
      · rcases List.mem_cons.mp h with h | h
        · exact absurd h (by decide)
        · exact hpost h
    unfold parseTime_v1
    rw [jsReplaceFirst_append_cons hpre, jsReplaceFirst_of_not_mem hnp]
  · intro hh mm ss ff h1 h2 h3 h4 h5 h6 h7
    have hcol_h : ':' ∉ hh := not_mem_of_all_digit h1 (by decide)
    have hcol_m : ':' ∉ mm := not_mem_of_all_digit h3 (by decide)
    have hcol_t : ':' ∉ ss ++ '.' :: ff := by
      intro hmem
      rcases List.mem_append.mp hmem with h | h
      · exact not_mem_of_all_digit h5 (by decide) h
      · rcases List.mem_cons.mp h with h | h
        · exact absurd h (by decide)
        · exact not_mem_of_all_digit h7 (by decide) h
    have hnc : ',' ∉ hh ++ (':' :: (mm ++ (':' :: (ss ++ '.' :: ff)))) := by
      intro hmem
      rcases List.mem_append.mp hmem with h | h
      · exact not_mem_of_all_digit h1 (by decide) h
      · rcases List.mem_cons.mp h with h | h
        · exact absurd h (by decide)
        · rcases List.mem_append.mp h with h | h
          · exact not_mem_of_all_digit h3 (by decide) h
          · rcases List.mem_cons.mp h with h | h
            · exact absurd h (by decide)
            · rcases List.mem_append.mp h with h | h
              · exact not_mem_of_all_digit h5 (by decide) h
              · rcases List.mem_cons.mp h with h | h
                · exact absurd h (by decide)
                · exact not_mem_of_all_digit h7 (by decide) h
    unfold parseTime_v1
    rw [jsReplaceFirst_of_not_mem hnc, jsSplit_three hcol_h hcol_m hcol_t]
    simp only [parseIntJS_digits h1 h2, parseIntJS_digits h3 h4,
               parseFloatJS_digits h5 h6 h7, jsAdd, jsMul, qAdd_eq, qMul_eq]

/-- C4 witness: the interchange law and the formula instantiated at the
canonical example fields. -/
theorem parseTime_v1_separator_witness :
    parseTime_v1 ("00:00:01".data ++ ',' :: "100".data)
      = parseTime_v1 ("00:00:01".data ++ '.' :: "100".data)
    ∧ parseTime_v1 ("00".data ++ (':' :: ("00".data ++ (':' :: ("01".data ++ '.' :: "100".data)))))
      = some ((natOfDigits ("00".data) : ℚ) * 3600 + (natOfDigits ("00".data) : ℚ) * 60
          + ((natOfDigits ("01".data) : ℚ) + fracOfDigits ("100".data))) :=
  ⟨parseTime_v1_separator_interchange.2.2.2.1 _ _ (by decide) (by decide),
   parseTime_v1_separator_interchange.2.2.2.2 _ _ _ _ (by decide) (by decide) (by decide)
     (by decide) (by decide) (by decide) (by decide)⟩
